import Mathlib

/-!
Verification of the mik-ids monitoring core: a shallow embedding of the
host validator (`app.py`), the SQLite-backed `DataStore` (`data_store.py`,
tables modelled as Lean lists of row structures, SQL TEXT comparison
modelled by the computable byte order `strLe`), the collection cycle
`collect_data` and the background scheduler loop `background_data_collection`
(`app.py`). Queries take an explicit `cutoff` string standing for
`(datetime.now() - timedelta(hours=hours)).isoformat()`; the SQL predicate
`timestamp >= ?` becomes `strLe cutoff r.timestamp`.
-/

/-! ## Host validator (`app.py`, `is_valid_ip`)

The source checks the input against the regular expression
`^(\d{1,3}\.){3}\d{1,3}$` with `re.match`. A string matches the core
pattern exactly when it splits on `'.'` into four groups of one to three
digit characters. Python's `$` also matches just before a single trailing
newline, so that case is included. The digit class is modelled as the
ASCII digits, which is what every address string in this program uses. -/

/-- Split a character list on `'.'` separators (every string is the
`'.'`-interleaving of the groups this returns). -/
def splitOnDot : List Char → List (List Char)
  | [] => [[]]
  | c :: rest =>
    match splitOnDot rest with
    | [] => [[]]
    | g :: gs => if c = '.' then [] :: g :: gs else (c :: g) :: gs

/-- A group matching `\d{1,3}`: one to three digit characters. -/
def goodGroup (g : List Char) : Bool :=
  decide (1 ≤ g.length) && decide (g.length ≤ 3) && g.all (fun c => c.isDigit)

/-- The anchored core pattern `(\d{1,3}\.){3}\d{1,3}`: exactly four
dot-separated digit groups. -/
def ipCore (l : List Char) : Bool :=
  match splitOnDot l with
  | [a, b, c, d] => goodGroup a && goodGroup b && goodGroup c && goodGroup d
  | _ => false

/-- The validator `is_valid_ip` from `app.py`: `re.match` of the pattern above; `$` also
matches before one trailing newline. -/
def is_valid_ip (s : String) : Bool :=
  ipCore s.data ||
    (!s.data.isEmpty && (s.data.getLastD ' ' = '\n') && ipCore s.data.dropLast)

/-- The decimal digit character for `d < 10`. -/
def digitChar (d : Nat) : Char := Char.ofNat ('0'.toNat + d)

/-- Canonical decimal rendering of an octet value below 1000 (one to three
digit characters, no leading zeros). -/
def octStr (n : Nat) : List Char :=
  if n < 10 then [digitChar n]
  else if n < 100 then [digitChar (n / 10), digitChar (n % 10)]
  else [digitChar (n / 100), digitChar (n / 10 % 10), digitChar (n % 10)]

/-- Canonical dotted-quad rendering of four octet values. -/
def renderQuad (a b c d : Nat) : String :=
  ⟨octStr a ++ '.' :: (octStr b ++ '.' :: (octStr c ++ '.' :: octStr d))⟩

/-! ## Data model (`data_store.py` tables)

Each SQLite table is modelled as a Lean list of row structures, in
insertion order; the synthetic `id` column is not modelled (no query in
the source reads it). `INTEGER` columns are `Int`, `TEXT` columns are
`String`. -/

/-- One row of the `ip_traffic` table. -/
structure IpRow where
  ip_address : String
  tx_bytes : Int
  rx_bytes : Int
  total_bytes : Int
  connections : Int
  timestamp : String
deriving DecidableEq

/-- One row of the `bandwidth_usage` table. -/
structure BwRow where
  interface : String
  tx_bytes : Int
  rx_bytes : Int
  tx_packets : Int
  rx_packets : Int
  timestamp : String
deriving DecidableEq

/-- One row of the `active_connections` table. -/
structure ConnRow where
  src_address : String
  dst_address : String
  protocol : String
  orig_bytes : Int
  repl_bytes : Int
  timestamp : String
deriving DecidableEq

/-- A raw connection entry as fetched from the router: a string map whose
relevant keys may be absent (`data.get(k, default)` in the source). -/
structure RawConn where
  src_address : Option String
  dst_address : Option String
  protocol : Option String
  orig_bytes : Option String
  repl_bytes : Option String
deriving DecidableEq

/-- The per-interface value of the bandwidth mapping passed to
`store_bandwidth_usage`. -/
structure BwEntry where
  tx_bytes : Int
  rx_bytes : Int
  tx_packets : Int
  rx_packets : Int
  timestamp : String
deriving DecidableEq

/-- One result row of `get_top_ips_by_traffic`. -/
structure TopIpEntry where
  ip_address : String
  total_tx_bytes : Int
  total_rx_bytes : Int
  total_bytes : Int
  last_seen : String
deriving DecidableEq

/-- The dictionary returned by `get_connection_stats`; the two top-10
mappings and the protocol mapping are kept as ordered association lists,
matching the insertion order of the Python dict comprehensions. -/
structure ConnStats where
  total_connections : Nat
  protocol_counts : List (String × Nat)
  top_sources : List (String × Nat)
  top_destinations : List (String × Nat)
deriving DecidableEq

/-! ## Python `int()` on the raw byte fields (`store_active_connections`)

`int(data.get('orig-bytes', 0))` returns `0` when the key is missing and
otherwise parses the string: surrounding whitespace is ignored, an
optional single sign is allowed, and a non-empty run of decimal digits is
required — anything else raises `ValueError`. (Underscore digit grouping
and non-ASCII digits, which CPython also accepts, do not occur in router
byte counters and are not modelled.) -/

/-- Whitespace characters stripped by Python's `int(str)`. -/
def isPySpace (c : Char) : Bool :=
  c = ' ' || c = '\t' || c = '\n' || c = '\r' || c = '\x0b' || c = '\x0c'

/-- Numeric value of a run of decimal digit characters. -/
def digitsToNat (l : List Char) : Nat :=
  l.foldl (fun acc c => 10 * acc + (c.toNat - '0'.toNat)) 0

/-- Python `int(s)` on a string: `some` value, or `none` for the raised
`ValueError`. -/
def pyToInt (s : String) : Option Int :=
  let t := ((s.data.dropWhile isPySpace).reverse.dropWhile isPySpace).reverse
  let signDigits : Int × List Char :=
    match t with
    | '+' :: rest => (1, rest)
    | '-' :: rest => (-1, rest)
    | _ => (1, t)
  if signDigits.2 ≠ [] ∧ signDigits.2.all (fun c => c.isDigit) then
    some (signDigits.1 * (digitsToNat signDigits.2 : Int))
  else
    none

/-- Reading `int(data.get(key, 0))`: a missing field is the integer `0`, a present
field is parsed with `pyToInt`. -/
def parseByteField : Option String → Option Int
  | none => some 0
  | some s => pyToInt s

/-- The row built from one raw connection entry (`none` when a byte field
fails to parse, modelling the raised `ValueError`). -/
def mkConnRow (ts : String) (r : RawConn) : Option ConnRow :=
  match parseByteField r.orig_bytes, parseByteField r.repl_bytes with
  | some o, some p =>
      some ⟨r.src_address.getD "", r.dst_address.getD "", r.protocol.getD "",
            o, p, ts⟩
  | _, _ => none

/-! ## Store operations (`data_store.py`)

Each `store_*` method opens a connection, inserts its rows one by one and
commits only after the whole loop; an exception mid-loop is caught, the
method returns `False`, and closing the uncommitted connection discards
the rows already inserted. Hence each call either appends one row per
input record and returns `True`, or leaves the table unchanged and
returns `False`. An empty input returns `False` without touching the
table. -/

/-- The method `DataStore.store_ip_traffic`: appends one `ip_traffic` row per record
(the record fields are stored verbatim, `total_bytes` included). -/
def store_ip_traffic (tbl : List IpRow) (data : List IpRow) :
    Bool × List IpRow :=
  if data = [] then (false, tbl) else (true, tbl ++ data)

/-- The method `DataStore.store_bandwidth_usage`: appends one `bandwidth_usage` row
per interface entry of the mapping (modelled as an association list in
iteration order). -/
def store_bandwidth_usage (tbl : List BwRow) (data : List (String × BwEntry)) :
    Bool × List BwRow :=
  if data = [] then (false, tbl)
  else
    (true, tbl ++ data.map (fun e =>
      ⟨e.1, e.2.tx_bytes, e.2.rx_bytes, e.2.tx_packets, e.2.rx_packets,
       e.2.timestamp⟩))

/-- The method `DataStore.store_active_connections`: one shared timestamp `ts` for
the batch (`datetime.now().isoformat()` taken once before the loop); each
record's byte fields go through `int(...)`. The first `ValueError`
aborts the call before the commit, so nothing is stored and `False` is
returned; otherwise one row per record is appended. -/
def store_active_connections (tbl : List ConnRow) (ts : String)
    (data : List RawConn) : Bool × List ConnRow :=
  if data = [] then (false, tbl)
  else if data.all (fun r => (mkConnRow ts r).isSome) then
    (true, tbl ++ data.filterMap (mkConnRow ts))
  else (false, tbl)

/-! ## Query operations (`data_store.py`)

`timestamp >= ?` with the iso-formatted cutoff compares TEXT values, i.e.
strings; `ORDER BY timestamp` is modelled as a stable insertion sort by
the same string order. The optional filters use Python truthiness:
`if ip_address:` skips the filter for `None` and for the empty string. -/

/-- Python truthiness of an optional string argument. -/
def optTruthy : Option String → Bool
  | none => false
  | some s => !(s = "")

/-- Lexicographic comparison of character lists, the order SQLite's
BINARY collation gives TEXT values (on the ASCII timestamp strings of
this program, byte order and code-point order coincide). -/
def charsLe : List Char → List Char → Bool
  | [], _ => true
  | _ :: _, [] => false
  | a :: as, b :: bs =>
    if a < b then true
    else if b < a then false
    else charsLe as bs

/-- The TEXT comparison `a <= b` used by `timestamp >= ?`, `MAX(timestamp)`
and `ORDER BY timestamp`. -/
def strLe (a b : String) : Bool := charsLe a.data b.data

theorem charsLe_refl : ∀ l : List Char, charsLe l l = true := by
  intro l
  induction l with
  | nil => rfl
  | cons a as ih => simp [charsLe, lt_irrefl, ih]

theorem charsLe_total : ∀ a b : List Char,
    charsLe a b = true ∨ charsLe b a = true := by
  intro a
  induction a with
  | nil => intro b; left; rfl
  | cons x xs ih =>
    intro b
    cases b with
    | nil => right; rfl
    | cons y ys =>
      rcases lt_trichotomy x y with h | h | h
      · left; simp [charsLe, h]
      · subst h
        rcases ih ys with h2 | h2
        · left; simp [charsLe, lt_irrefl, h2]
        · right; simp [charsLe, lt_irrefl, h2]
      · right; simp [charsLe, h]

theorem charsLe_trans : ∀ a b c : List Char, charsLe a b = true →
    charsLe b c = true → charsLe a c = true := by
  intro a
  induction a with
  | nil => intro b c _ _; rfl
  | cons x xs ih =>
    intro b c h1 h2
    cases b with
    | nil => simp [charsLe] at h1
    | cons y ys =>
      cases c with
      | nil => simp [charsLe] at h2
      | cons z zs =>
        rcases lt_trichotomy x y with hxy | hxy | hxy
        · rcases lt_trichotomy y z with hyz | hyz | hyz
          · simp [charsLe, lt_trans hxy hyz]
          · subst hyz; simp [charsLe, hxy]
          · simp [charsLe, hyz, lt_asymm hyz] at h2
        · subst hxy
          rcases lt_trichotomy x z with hyz | hyz | hyz
          · simp [charsLe, hyz]
          · subst hyz
            simp only [charsLe, lt_irrefl, if_false] at h1 h2 ⊢
            exact ih ys zs h1 h2
          · simp [charsLe, hyz, lt_asymm hyz] at h2
        · simp [charsLe, hxy, lt_asymm hxy] at h1

theorem strLe_refl (s : String) : strLe s s = true := charsLe_refl s.data

theorem strLe_total (a b : String) : strLe a b = true ∨ strLe b a = true :=
  charsLe_total a.data b.data

theorem strLe_trans {a b c : String} (h1 : strLe a b = true)
    (h2 : strLe b c = true) : strLe a c = true :=
  charsLe_trans a.data b.data c.data h1 h2

/-- The empty string is a bottom element of the TEXT order. -/
theorem strLe_empty (s : String) : strLe "" s = true := rfl

theorem eq_empty_of_strLe_empty {s : String} (h : strLe s "" = true) :
    s = "" := by
  rcases s with ⟨l⟩
  cases l with
  | nil => rfl
  | cons c cs => simp [strLe, charsLe] at h

/-- Ascending timestamp order on `ip_traffic` rows. -/
def ipTsLe (a b : IpRow) : Prop := strLe a.timestamp b.timestamp = true

instance : DecidableRel ipTsLe := fun a b =>
  inferInstanceAs (Decidable (strLe a.timestamp b.timestamp = true))

instance : IsTotal IpRow ipTsLe := ⟨fun a b => strLe_total a.timestamp b.timestamp⟩

instance : IsTrans IpRow ipTsLe := ⟨fun _ _ _ h1 h2 => strLe_trans h1 h2⟩

/-- Ascending timestamp order on `bandwidth_usage` rows. -/
def bwTsLe (a b : BwRow) : Prop := strLe a.timestamp b.timestamp = true

instance : DecidableRel bwTsLe := fun a b =>
  inferInstanceAs (Decidable (strLe a.timestamp b.timestamp = true))

instance : IsTotal BwRow bwTsLe := ⟨fun a b => strLe_total a.timestamp b.timestamp⟩

instance : IsTrans BwRow bwTsLe := ⟨fun _ _ _ h1 h2 => strLe_trans h1 h2⟩

/-- Descending summed-traffic order on top-IP result rows. -/
def topDesc (a b : TopIpEntry) : Prop := b.total_bytes ≤ a.total_bytes

instance : DecidableRel topDesc := fun a b =>
  inferInstanceAs (Decidable (b.total_bytes ≤ a.total_bytes))

instance : IsTotal TopIpEntry topDesc :=
  ⟨fun a b => (le_total b.total_bytes a.total_bytes).imp id id⟩

instance : IsTrans TopIpEntry topDesc := ⟨fun _ _ _ h1 h2 => le_trans h2 h1⟩

/-- Descending count order on `(key, count)` pairs. -/
def cntDesc (a b : String × Nat) : Prop := b.2 ≤ a.2

instance : DecidableRel cntDesc := fun a b =>
  inferInstanceAs (Decidable (b.2 ≤ a.2))

instance : IsTotal (String × Nat) cntDesc :=
  ⟨fun a b => (le_total b.2 a.2).imp id id⟩

instance : IsTrans (String × Nat) cntDesc := ⟨fun _ _ _ h1 h2 => le_trans h2 h1⟩

/-- The `WHERE timestamp >= ?` window over `ip_traffic` rows. -/
def ipWindow (tbl : List IpRow) (cutoff : String) : List IpRow :=
  tbl.filter (fun r => strLe cutoff r.timestamp)

/-- The `WHERE timestamp >= ?` window over `bandwidth_usage` rows. -/
def bwWindow (tbl : List BwRow) (cutoff : String) : List BwRow :=
  tbl.filter (fun r => strLe cutoff r.timestamp)

/-- The `WHERE timestamp >= ?` window over `active_connections` rows. -/
def connWindow (tbl : List ConnRow) (cutoff : String) : List ConnRow :=
  tbl.filter (fun r => strLe cutoff r.timestamp)

/-- The query `DataStore.get_ip_traffic_history`: window filter, optional exact IP
filter (skipped for a falsy argument), ascending timestamp order. -/
def get_ip_traffic_history (tbl : List IpRow) (ip_address : Option String)
    (cutoff : String) : List IpRow :=
  let win := ipWindow tbl cutoff
  let filt :=
    if optTruthy ip_address then
      win.filter (fun r => r.ip_address = ip_address.getD "")
    else win
  List.insertionSort ipTsLe filt

/-- The query `DataStore.get_bandwidth_history`: window filter, optional exact
interface filter (skipped for a falsy argument), ascending timestamp
order. -/
def get_bandwidth_history (tbl : List BwRow) (interface : Option String)
    (cutoff : String) : List BwRow :=
  let win := bwWindow tbl cutoff
  let filt :=
    if optTruthy interface then
      win.filter (fun r => r.interface = interface.getD "")
    else win
  List.insertionSort bwTsLe filt

/-- The larger of two TEXT values. -/
def tsMax (a b : String) : String := if strLe a b then b else a

/-- The aggregate `MAX(timestamp)` over a group (the empty string is a bottom element of
the TEXT order, so the fold returns the maximum of a non-empty group). -/
def maxTs (l : List String) : String := l.foldr tsMax ""

/-- The aggregate row `GROUP BY ip_address` produces for key `k` over the
in-window rows `win`. -/
def topGroup (win : List IpRow) (k : String) : TopIpEntry :=
  { ip_address := k
    total_tx_bytes := ((win.filter (fun r => r.ip_address = k)).map
      (fun r => r.tx_bytes)).sum
    total_rx_bytes := ((win.filter (fun r => r.ip_address = k)).map
      (fun r => r.rx_bytes)).sum
    total_bytes := ((win.filter (fun r => r.ip_address = k)).map
      (fun r => r.total_bytes)).sum
    last_seen := maxTs ((win.filter (fun r => r.ip_address = k)).map
      (fun r => r.timestamp)) }

/-- The query `DataStore.get_top_ips_by_traffic`: group the in-window rows by
`ip_address`, sum the byte columns, take `MAX(timestamp)` as `last_seen`,
order descending by summed `total_bytes`, truncate to `limit`. -/
def get_top_ips_by_traffic (tbl : List IpRow) (limit : Nat)
    (cutoff : String) : List TopIpEntry :=
  let win := ipWindow tbl cutoff
  let keys := (win.map (fun r => r.ip_address)).dedup
  (List.insertionSort topDesc (keys.map (topGroup win))).take limit

/-- The query `SELECT key, COUNT(*) ... GROUP BY key ORDER BY count DESC` over
connection rows. -/
def countBy (keyOf : ConnRow → String) (rows : List ConnRow) :
    List (String × Nat) :=
  let keys := (rows.map keyOf).dedup
  List.insertionSort cntDesc
    (keys.map (fun k => (k, (rows.filter (fun r => keyOf r = k)).length)))

/-- The query `DataStore.get_connection_stats`: row count, counts by protocol, and
the top ten source and destination addresses by frequency, all over the
time window. -/
def get_connection_stats (tbl : List ConnRow) (cutoff : String) : ConnStats :=
  let win := connWindow tbl cutoff
  { total_connections := win.length
    protocol_counts := countBy (fun r => r.protocol) win
    top_sources := (countBy (fun r => r.src_address) win).take 10
    top_destinations := (countBy (fun r => r.dst_address) win).take 10 }

/-! ## Collection cycle and scheduler (`app.py`)

`collect_data` runs the three fetch/store steps inside one `try` block:
a raised fault in any fetch aborts the cycle, is logged, and makes the
function return `False` (the fault never propagates); `last_update` is
assigned only after all three steps, so only a fully completed cycle
updates it. Each fetch result is modelled as an `Option` — `none` stands
for a raised fault, `some` for the returned value (the `store_*` calls
themselves catch internally and never raise). A store call is made only
when the fetched value is truthy, i.e. non-empty. -/

/-- The three fetch results one cycle obtains from the `MikrotikAPI`
object; `none` models a raised fault. -/
structure ApiFetch where
  connections : Option (List RawConn)
  bandwidth : Option (List (String × BwEntry))
  traffic : Option (List IpRow)
deriving DecidableEq

/-- The persistent state a cycle may change: the three tables and
`st.session_state.last_update`. -/
structure StoreState where
  connTbl : List ConnRow
  bwTbl : List BwRow
  ipTbl : List IpRow
  last_update : Option String
deriving DecidableEq

/-- The cycle `collect_data` from `app.py`. `connected`/`hasApi` are the
`st.session_state.connected` / `st.session_state.api` guards; `connTs` is
the `datetime.now()` taken inside `store_active_connections`; `now` is
the `datetime.now()` assigned to `last_update` on success. -/
def collect_data (connected hasApi : Bool) (api : ApiFetch)
    (connTs now : String) (st : StoreState) : Bool × StoreState :=
  if !(connected && hasApi) then (false, st)
  else
    match api.connections with
    | none => (false, st)
    | some conns =>
      let st1 :=
        if conns ≠ [] then
          { st with connTbl := (store_active_connections st.connTbl connTs conns).2 }
        else st
      match api.bandwidth with
      | none => (false, st1)
      | some bw =>
        let st2 :=
          if bw ≠ [] then
            { st1 with bwTbl := (store_bandwidth_usage st1.bwTbl bw).2 }
          else st1
        match api.traffic with
        | none => (false, st2)
        | some tr =>
          let st3 :=
            if tr ≠ [] then
              { st2 with ipTbl := (store_ip_traffic st2.ipTbl tr).2 }
            else st2
          (true, { st3 with last_update := some now })

/-- What the background loop observes at the top of one iteration: the
stop event, the shared session flags, and the data the cycle would fetch.
The loop body holds no other suspension point, so one list element per
iteration captures every interleaving of the shared-state writers. -/
structure IterObs where
  stopSet : Bool
  connected : Bool
  hasApi : Bool
  autoUpdate : Bool
  api : ApiFetch
  connTs : String
  now : String
deriving DecidableEq

/-- The loop `background_data_collection` from `app.py`:
`while not stop_event.is_set(): if connected and auto_update:
collect_data(); time.sleep(update_interval)`. The result is the final
store state, one flag per entered iteration recording whether that
iteration ran a cycle, and the total time slept (each entered iteration
sleeps the full `interval`, unconditionally and uninterruptibly; the stop
event is consulted only at the top of the loop). -/
def background_data_collection (interval : Nat) :
    List IterObs → StoreState → StoreState × List Bool × Nat
  | [], st => (st, [], 0)
  | o :: rest, st =>
    if o.stopSet then (st, [], 0)
    else
      let st1 :=
        if o.connected && o.autoUpdate then
          (collect_data o.connected o.hasApi o.api o.connTs o.now st).2
        else st
      let r := background_data_collection interval rest st1
      (r.1, (o.connected && o.autoUpdate) :: r.2.1, interval + r.2.2)

/-- An idle iteration observation (nothing to collect), used to time the
loop's reaction to the stop event. -/
def idleObs (stop : Bool) : IterObs :=
  ⟨stop, false, false, false, ⟨some [], some [], some []⟩, "", ""⟩

/-- Sleep time executed after the stop event is set, when the event is set
immediately after the top-of-loop check of iteration `k`: checks `0..k`
observe the event unset, check `k+1` observes it set, and the sleep
performed before the event was set is the `k` full sleeps of iterations
`0..k-1`. -/
def stop_exit_latency (interval k : Nat) : Nat :=
  (background_data_collection interval
      (List.replicate (k + 1) (idleObs false) ++ [idleObs true])
      ⟨[], [], [], none⟩).2.2 - k * interval

/-- The observable outcome of the sidebar Connect handler (`app.py`):
the session `connected` flag, whether `stop_event.clear()` ran, whether
the background thread was started, whether the synchronous
`collect_data()` call ran and what it returned, and the resulting store
state. -/
structure ConnOutcome where
  connected : Bool
  stopCleared : Bool
  threadStarted : Bool
  collectAttempted : Bool
  collectResult : Bool
  store : StoreState
deriving DecidableEq

/-- The Connect button handler of `app.py`: reject a host that is neither
a regex-valid IP nor an `http`-prefixed URL; otherwise authenticate
(`authOk` models `MikrotikAPI.connect()`); on success set `connected`,
clear the stop event, start the background thread, and run one
synchronous `collect_data()` before returning. -/
def connect_handler (host : String) (authOk : Bool) (api : ApiFetch)
    (connTs now : String) (st : StoreState) : ConnOutcome :=
  if !is_valid_ip host && !host.startsWith "http" then
    ⟨false, false, false, false, false, st⟩
  else if authOk then
    let c := collect_data true true api connTs now st
    ⟨true, true, true, true, c.1, c.2⟩
  else ⟨false, false, false, false, false, st⟩

example : is_valid_ip "192.168.88.1" = true := by decide
example : is_valid_ip "300.0.0.0" = true := by decide
example : is_valid_ip "1.2.3" = false := by decide
example : is_valid_ip "a.b.c.d" = false := by decide
example : renderQuad 192 168 88 1 = "192.168.88.1" := by decide
example : pyToInt "  123 " = some 123 := by decide
example : pyToInt "-42" = some (-42) := by decide
example : pyToInt "abc" = none := by decide
example : pyToInt "" = none := by decide
example : pyToInt "12.5" = none := by decide

/-! ## Helper lemmas -/

theorem strLe_tsMax_left (a b : String) : strLe a (tsMax a b) = true := by
  unfold tsMax
  cases h : strLe a b with
  | true => simp [h]
  | false => simp [h, strLe_refl]

theorem strLe_tsMax_right (a b : String) : strLe b (tsMax a b) = true := by
  unfold tsMax
  cases h : strLe a b with
  | true => simp [h, strLe_refl]
  | false =>
    rcases strLe_total a b with h2 | h2
    · rw [h] at h2; cases h2
    · simpa [h] using h2

/-- The value `maxTs` bounds every element of the list. -/
theorem le_maxTs (l : List String) : ∀ x ∈ l, strLe x (maxTs l) = true := by
  induction l with
  | nil => intro x hx; cases hx
  | cons a t ih =>
    intro x hx
    rcases List.mem_cons.mp hx with h | h
    · subst h; exact strLe_tsMax_left _ _
    · exact strLe_trans (ih x h) (strLe_tsMax_right _ _)

/-- The value `maxTs` of a non-empty list is one of its elements. -/
theorem maxTs_mem (l : List String) (h : l ≠ []) : maxTs l ∈ l := by
  induction l with
  | nil => exact absurd rfl h
  | cons a t ih =>
    cases t with
    | nil =>
      show tsMax a "" ∈ [a]
      unfold tsMax
      cases hc : strLe a "" with
      | true => simp [eq_empty_of_strLe_empty hc]
      | false => simp
    | cons b u =>
      have hmem : maxTs (b :: u) ∈ b :: u := ih (by simp)
      show tsMax a (maxTs (b :: u)) ∈ a :: b :: u
      unfold tsMax
      cases hc : strLe a (maxTs (b :: u)) with
      | true => exact List.mem_cons_of_mem _ hmem
      | false => exact List.mem_cons_self _ _

/-! ## C10 -/

/-- C10: passing the empty string as the IP filter to
`get_ip_traffic_history` (or as the interface filter to
`get_bandwidth_history`) behaves identically to passing no filter at all:
the argument is tested with Python truthiness (`if ip_address:`), which
is false for `''` exactly as for `None`, so no exact-match filter is
applied and all rows in the window are returned. -/
theorem empty_string_filter_is_no_filter :
    ∀ (ipTbl : List IpRow) (bwTbl : List BwRow) (cutoff : String),
      get_ip_traffic_history ipTbl (some "") cutoff =
        get_ip_traffic_history ipTbl none cutoff ∧
      get_bandwidth_history bwTbl (some "") cutoff =
        get_bandwidth_history bwTbl none cutoff := by
  intro ipTbl bwTbl cutoff
  constructor <;> rfl

/-! ## C5 -/

/-- C5: when no connection row has a timestamp inside the query window,
`get_connection_stats` returns a result (not an error) with zero
`total_connections` and empty `protocol_counts`, `top_sources` and
`top_destinations`. -/
theorem connection_stats_empty_window (tbl : List ConnRow) (cutoff : String)
    (h : ∀ r ∈ tbl, strLe cutoff r.timestamp = false) :
    get_connection_stats tbl cutoff = ⟨0, [], [], []⟩ := by
  have hw : connWindow tbl cutoff = [] := by
    apply List.filter_eq_nil_iff.mpr
    intro a ha
    simp [h a ha]
  simp [get_connection_stats, hw, countBy]

/-- C5 witness: a table whose only row is older than the cutoff yields the
zeroed statistics. -/
theorem connection_stats_empty_window_witness :
    get_connection_stats [⟨"1.1.1.1:40000", "8.8.8.8:53", "udp", 100, 200,
        "2023-12-31T10:00:00"⟩] "2024-01-01T00:00:00" = ⟨0, [], [], []⟩ :=
  connection_stats_empty_window _ _ (by decide)

/-! ## C1 -/

/-- C1 counterexample: `store_ip_traffic` stores records verbatim and
`get_ip_traffic_history` windows on the timestamp, so for a stored pair
consisting of one record older than the 24-hour cutoff and one in-window
record whose `total_bytes` is not `tx_bytes + rx_bytes`, the query
returns neither exactly the stored records nor records satisfying
`total_bytes = tx_bytes + rx_bytes`: it returns only the inconsistent
record, unchanged. -/
theorem store_then_query_ip_traffic_counterexample :
    (store_ip_traffic []
        [⟨"10.0.0.3", 1, 1, 2, 1, "2023-12-31T00:00:00"⟩,
         ⟨"10.0.0.4", 1, 1, 5, 1, "2024-01-02T00:00:00"⟩]).1 = true ∧
    get_ip_traffic_history
        (store_ip_traffic []
          [⟨"10.0.0.3", 1, 1, 2, 1, "2023-12-31T00:00:00"⟩,
           ⟨"10.0.0.4", 1, 1, 5, 1, "2024-01-02T00:00:00"⟩]).2
        none "2024-01-01T00:00:00" =
      [⟨"10.0.0.4", 1, 1, 5, 1, "2024-01-02T00:00:00"⟩] ∧
    ((5 : Int) ≠ 1 + 1) :=
  ⟨by decide, by decide, by decide⟩

/-- C1 (amended): for every non-empty list of IP-traffic records whose
timestamps lie inside the query window and whose `total_bytes` equals
`tx_bytes + rx_bytes`, `store_ip_traffic` into an empty table followed by
`get_ip_traffic_history` with no IP filter returns exactly the stored
records (as a permutation), ordered ascending by timestamp, each
satisfying `total_bytes = tx_bytes + rx_bytes`. -/
theorem store_then_query_ip_traffic (data : List IpRow) (cutoff : String)
    (hne : data ≠ [])
    (hwin : ∀ r ∈ data, strLe cutoff r.timestamp = true)
    (hsum : ∀ r ∈ data, r.total_bytes = r.tx_bytes + r.rx_bytes) :
    (store_ip_traffic [] data).1 = true ∧
    (get_ip_traffic_history (store_ip_traffic [] data).2 none cutoff).Perm
      data ∧
    (get_ip_traffic_history (store_ip_traffic [] data).2 none cutoff).Pairwise
      (fun a b => strLe a.timestamp b.timestamp = true) ∧
    ∀ r ∈ get_ip_traffic_history (store_ip_traffic [] data).2 none cutoff,
      r.total_bytes = r.tx_bytes + r.rx_bytes := by
  have h1 : (store_ip_traffic [] data).1 = true := by
    simp [store_ip_traffic, hne]
  have h2 : (store_ip_traffic [] data).2 = data := by
    simp [store_ip_traffic, hne]
  have hq : get_ip_traffic_history data none cutoff =
      List.insertionSort ipTsLe data := by
    unfold get_ip_traffic_history
    have hw : ipWindow data cutoff = data := by
      apply List.filter_eq_self.mpr
      intro a ha
      simp [hwin a ha]
    simp [optTruthy, hw]
  refine ⟨h1, ?_, ?_, ?_⟩
  · rw [h2, hq]
    exact List.perm_insertionSort ipTsLe data
  · rw [h2, hq]
    exact List.sorted_insertionSort ipTsLe data
  · rw [h2, hq]
    intro r hr
    exact hsum r ((List.perm_insertionSort ipTsLe data).mem_iff.mp hr)

/-- C1 witness: the amended theorem applied to one concrete consistent
in-window record. -/
theorem store_then_query_ip_traffic_witness :
    (store_ip_traffic [] [⟨"10.0.0.1", 2, 3, 5, 1, "2024-01-02T00:00:00"⟩]).1 =
      true :=
  (store_then_query_ip_traffic
    [⟨"10.0.0.1", 2, 3, 5, 1, "2024-01-02T00:00:00"⟩]
    "2024-01-01T00:00:00" (by decide) (by decide) (by decide)).1

/-! ## C4 -/

/-- When `f` succeeds on every element, `filterMap f` relates pointwise to
the input. -/
theorem forall2_filterMap_of_isSome {α β : Type} (f : α → Option β) :
    ∀ l : List α, (∀ a ∈ l, (f a).isSome = true) →
      List.Forall₂ (fun a b => f a = some b) l (l.filterMap f) := by
  intro l
  induction l with
  | nil => intro _; simp [List.filterMap]
  | cons a t ih =>
    intro h
    have ha : (f a).isSome = true := h a (List.mem_cons_self a t)
    rcases Option.isSome_iff_exists.mp ha with ⟨b, hb⟩
    rw [List.filterMap_cons, hb]
    exact List.Forall₂.cons hb (ih (fun x hx => h x (List.mem_cons_of_mem a hx)))

/-- A missing `orig-bytes` field is stored as `0`. -/
theorem mkConnRow_missing_orig (ts : String) (r : RawConn) (row : ConnRow)
    (h : mkConnRow ts r = some row) (hm : r.orig_bytes = none) :
    row.orig_bytes = 0 := by
  unfold mkConnRow at h
  rw [hm] at h
  rcases hp : parseByteField r.repl_bytes with _ | p <;> rw [hp] at h
  · exact Option.noConfusion h
  · rw [show parseByteField none = some 0 from rfl] at h
    simp only [Option.some.injEq] at h
    rw [← h]

/-- A missing `repl-bytes` field is stored as `0`. -/
theorem mkConnRow_missing_repl (ts : String) (r : RawConn) (row : ConnRow)
    (h : mkConnRow ts r = some row) (hm : r.repl_bytes = none) :
    row.repl_bytes = 0 := by
  unfold mkConnRow at h
  rw [hm] at h
  rw [show parseByteField none = some 0 from rfl] at h
  rcases hp : parseByteField r.orig_bytes with _ | p <;> rw [hp] at h
  · exact Option.noConfusion h
  · simp only [Option.some.injEq] at h
    rw [← h]

/-- C4 counterexample: a batch whose single record carries the
non-numeric byte field `"abc"` makes `int(...)` raise, so the whole call
fails and stores nothing — the record is not stored with the field set to
`0` and the call does not succeed. -/
theorem store_connections_counterexample :
    store_active_connections [] "2024-01-01T00:00:00"
        [⟨some "1.1.1.1:50000", some "2.2.2.2:80", some "tcp",
          some "abc", none⟩] = (false, []) ∧
    pyToInt "abc" = none :=
  ⟨by decide, by decide⟩

/-- C4 (amended): `store_active_connections` writes exactly one row per
input record, sharing the batch timestamp, whenever every byte field is
missing or numeric; a missing byte field is stored as `0`. A record with
a non-numeric byte field instead aborts the whole call: it reports
failure and stores nothing. -/
theorem store_connections_amended (tbl : List ConnRow) (ts : String)
    (data : List RawConn) (hne : data ≠ [])
    (hok : ∀ r ∈ data, (mkConnRow ts r).isSome = true) :
    (store_active_connections tbl ts data).1 = true ∧
    ∃ rows : List ConnRow,
      (store_active_connections tbl ts data).2 = tbl ++ rows ∧
      rows.length = data.length ∧
      List.Forall₂ (fun (r : RawConn) (row : ConnRow) =>
        mkConnRow ts r = some row ∧ row.timestamp = ts ∧
        (r.orig_bytes = none → row.orig_bytes = 0) ∧
        (r.repl_bytes = none → row.repl_bytes = 0)) data rows := by
  have hall : data.all (fun r => (mkConnRow ts r).isSome) = true := by
    rw [List.all_eq_true]
    intro r hr
    exact hok r hr
  have h1 : store_active_connections tbl ts data =
      (true, tbl ++ data.filterMap (mkConnRow ts)) := by
    simp [store_active_connections, hne, hall]
  rw [h1]
  refine ⟨rfl, data.filterMap (mkConnRow ts), rfl, ?_, ?_⟩
  · exact ((forall2_filterMap_of_isSome (mkConnRow ts) data hok).length_eq).symm
  · apply List.Forall₂.imp ?_ (forall2_filterMap_of_isSome (mkConnRow ts) data hok)
    intro r row h
    refine ⟨h, ?_, mkConnRow_missing_orig ts r row h,
      mkConnRow_missing_repl ts r row h⟩
    unfold mkConnRow at h
    rcases ho : parseByteField r.orig_bytes with _ | o <;> rw [ho] at h
    · exact Option.noConfusion h
    · rcases hp : parseByteField r.repl_bytes with _ | p <;> rw [hp] at h
      · exact Option.noConfusion h
      · simp only [Option.some.injEq] at h
        rw [← h]

/-- C4 witness: the amended theorem applied to one record with a missing
`repl-bytes` field and a numeric `orig-bytes` field. -/
theorem store_connections_amended_witness :
    (store_active_connections [] "2024-01-01T00:00:00"
      [⟨some "1.1.1.1:50000", some "2.2.2.2:80", some "tcp",
        some "123", none⟩]).1 = true :=
  (store_connections_amended [] "2024-01-01T00:00:00"
    [⟨some "1.1.1.1:50000", some "2.2.2.2:80", some "tcp",
      some "123", none⟩] (by decide) (by decide)).1

/-! ## C6 -/

/-- C6: `collect_data` is a total function returning a success flag (a
raised fault inside the cycle is caught and becomes `false`, never a
propagated exception). The cycle succeeds exactly when the session is
connected with an API object and no fetch raises; `last_update` is set to
the cycle's completion time on success and is left unchanged whenever the
cycle is abandoned. -/
theorem collect_data_fault_handling :
    ∀ (connected hasApi : Bool) (api : ApiFetch) (connTs now : String)
      (st : StoreState),
      ((collect_data connected hasApi api connTs now st).1 = true ↔
        connected = true ∧ hasApi = true ∧ api.connections ≠ none ∧
        api.bandwidth ≠ none ∧ api.traffic ≠ none) ∧
      (collect_data connected hasApi api connTs now st).2.last_update =
        (if (collect_data connected hasApi api connTs now st).1 = true
          then some now else st.last_update) := by
  intro connected hasApi api connTs now st
  rcases api with ⟨conns, bw, tr⟩
  cases connected <;> cases hasApi <;>
    rcases conns with _ | conns <;> rcases bw with _ | bw <;>
    rcases tr with _ | tr <;>
    simp [collect_data] <;>
    split_ifs <;> simp

/-! ## C7 -/

/-- One collection cycle only ever appends rows to the three tables. -/
theorem collect_data_extends (connected hasApi : Bool) (api : ApiFetch)
    (connTs now : String) (st : StoreState) :
    (∃ e, (collect_data connected hasApi api connTs now st).2.connTbl =
      st.connTbl ++ e) ∧
    (∃ e, (collect_data connected hasApi api connTs now st).2.bwTbl =
      st.bwTbl ++ e) ∧
    (∃ e, (collect_data connected hasApi api connTs now st).2.ipTbl =
      st.ipTbl ++ e) := by
  rcases api with ⟨conns, bw, tr⟩
  cases connected <;> cases hasApi <;>
    rcases conns with _ | conns <;> rcases bw with _ | bw <;>
    rcases tr with _ | tr <;>
    simp [collect_data, store_active_connections, store_bandwidth_usage,
      store_ip_traffic] <;>
    split_ifs <;>
    refine ⟨?_, ?_, ?_⟩ <;>
    first
      | exact ⟨_, rfl⟩
      | exact ⟨[], (List.append_nil _).symm⟩

/-- C7: in every execution of the background loop, an iteration is
entered (and may run a cycle) exactly when the stop event was observed
unset at the top of that iteration — the recorded cycle flags correspond
one-to-one to the maximal unset-observation prefix, so no cycle begins
once the stop event is observed set — and the tables only grow across the
run, so the rows stored by a cycle that completed before the stop are
still present in the final state. -/
theorem scheduler_stop_gate_and_persistence :
    ∀ (interval : Nat) (obs : List IterObs) (st : StoreState),
      (background_data_collection interval obs st).2.1 =
        (obs.takeWhile (fun o => !o.stopSet)).map
          (fun o => o.connected && o.autoUpdate) ∧
      (∃ e, (background_data_collection interval obs st).1.connTbl =
        st.connTbl ++ e) ∧
      (∃ e, (background_data_collection interval obs st).1.bwTbl =
        st.bwTbl ++ e) ∧
      (∃ e, (background_data_collection interval obs st).1.ipTbl =
        st.ipTbl ++ e) := by
  intro interval obs
  induction obs with
  | nil =>
    intro st
    refine ⟨by simp [background_data_collection], ?_, ?_, ?_⟩ <;>
      exact ⟨[], by simp [background_data_collection]⟩
  | cons o rest ih =>
    intro st
    cases hs : o.stopSet with
    | true =>
      refine ⟨by simp [background_data_collection, hs], ?_, ?_, ?_⟩ <;>
        exact ⟨[], by simp [background_data_collection, hs]⟩
    | false =>
      cases hr : o.connected && o.autoUpdate with
      | false =>
        obtain ⟨hfl, ⟨e1, he1⟩, ⟨e2, he2⟩, ⟨e3, he3⟩⟩ := ih st
        refine ⟨?_, ⟨e1, ?_⟩, ⟨e2, ?_⟩, ⟨e3, ?_⟩⟩ <;>
          simp [background_data_collection, hs, hr, hfl, he1, he2, he3]
      | true =>
        obtain ⟨hfl, ⟨e1, he1⟩, ⟨e2, he2⟩, ⟨e3, he3⟩⟩ :=
          ih (collect_data o.connected o.hasApi o.api o.connTs o.now st).2
        obtain ⟨⟨f1, hf1⟩, ⟨f2, hf2⟩, ⟨f3, hf3⟩⟩ :=
          collect_data_extends o.connected o.hasApi o.api o.connTs o.now st
        refine ⟨?_, ⟨f1 ++ e1, ?_⟩, ⟨f2 ++ e2, ?_⟩, ⟨f3 ++ e3, ?_⟩⟩ <;>
          simp [background_data_collection, hs, hr, hfl, he1, he2, he3,
            hf1, hf2, hf3]

/-! ## C8 -/

/-- Total sleep performed by a loop run that observes the stop event
unset `k` times and then set: every entered iteration sleeps one full
interval. -/
theorem loop_sleep_replicate (interval : Nat) :
    ∀ (k : Nat) (st : StoreState),
      (background_data_collection interval
        (List.replicate k (idleObs false) ++ [idleObs true]) st).2.2 =
      k * interval := by
  intro k
  induction k with
  | zero => intro st; simp [background_data_collection, idleObs]
  | succ n ih =>
    intro st
    simp [background_data_collection,
      show (idleObs false).stopSet = false from rfl,
      show ((idleObs false).connected && (idleObs false).autoUpdate) = false
        from rfl, ih]
    ring

/-- C8 counterexample: with a 60-second period, a stop signal set
immediately after a top-of-loop check is followed by the iteration's
entire 60-second `time.sleep` before the next (and only) stop check —
the loop does not exit within a sleep-check granularity smaller than the
period, because the only stop check is the one at the top of the loop. -/
theorem stop_latency_counterexample :
    stop_exit_latency 60 0 = 60 ∧ ¬ stop_exit_latency 60 0 < 60 :=
  ⟨by decide, by decide⟩

/-- C8 (amended): the loop checks the stop event only at the top of each
iteration and sleeps the full `periodSeconds` uninterruptibly inside the
iteration, so after the stop event is set the loop performs exactly one
further full-period sleep before exiting — exit latency is one full
period, not one sleep-check granularity. -/
theorem stop_latency_is_full_period :
    ∀ interval k : Nat, stop_exit_latency interval k = interval := by
  intro interval k
  unfold stop_exit_latency
  rw [loop_sleep_replicate interval (k + 1)]
  rw [Nat.succ_mul]
  exact Nat.add_sub_cancel_left (k * interval) interval

/-! ## C9 -/

/-- C9 counterexample: a successful connect against a reachable device
whose three fetches all return empty collections transitions to Connected
and runs its synchronous cycle, but no store call is made (each `if data:`
guard is false), so the store holds no record set at all immediately
after `connect()` returns. -/
theorem connect_counterexample :
    (connect_handler "192.168.88.1" true ⟨some [], some [], some []⟩
      "2024-01-01T00:00:00" "2024-01-01T00:00:01"
      ⟨[], [], [], none⟩).connected = true ∧
    (connect_handler "192.168.88.1" true ⟨some [], some [], some []⟩
      "2024-01-01T00:00:00" "2024-01-01T00:00:01"
      ⟨[], [], [], none⟩).store.connTbl = [] ∧
    (connect_handler "192.168.88.1" true ⟨some [], some [], some []⟩
      "2024-01-01T00:00:00" "2024-01-01T00:00:01"
      ⟨[], [], [], none⟩).store.bwTbl = [] ∧
    (connect_handler "192.168.88.1" true ⟨some [], some [], some []⟩
      "2024-01-01T00:00:00" "2024-01-01T00:00:01"
      ⟨[], [], [], none⟩).store.ipTbl = [] :=
  ⟨by decide, by decide, by decide, by decide⟩

/-- C9 (amended): `connect()` on a valid host with successful
authentication transitions to Connected, clears the stop signal, starts
the background scheduler, and performs one synchronous collection cycle
before returning; when no fetch raises, the cycle succeeds, each
non-empty fetched bandwidth and IP-traffic record set is present in the
store immediately after return, and the non-empty connections set is
present exactly when every record's byte fields are missing or numeric —
a connections batch containing a non-numeric byte field is silently
discarded by the store (the connections table is left unchanged). An
all-empty fetch makes no store call, so the store may still be empty. -/
theorem connect_success_behavior (host : String) (api : ApiFetch)
    (connTs now : String) (st : StoreState) (cs : List RawConn)
    (bs : List (String × BwEntry)) (trs : List IpRow)
    (hhost : is_valid_ip host = true)
    (hc : api.connections = some cs) (hb : api.bandwidth = some bs)
    (ht : api.traffic = some trs) :
    (connect_handler host true api connTs now st).connected = true ∧
    (connect_handler host true api connTs now st).stopCleared = true ∧
    (connect_handler host true api connTs now st).threadStarted = true ∧
    (connect_handler host true api connTs now st).collectAttempted = true ∧
    (connect_handler host true api connTs now st).collectResult = true ∧
    (connect_handler host true api connTs now st).store.last_update =
      some now ∧
    (trs ≠ [] →
      (connect_handler host true api connTs now st).store.ipTbl =
        st.ipTbl ++ trs) ∧
    (bs ≠ [] →
      (connect_handler host true api connTs now st).store.bwTbl =
        st.bwTbl ++ bs.map (fun e =>
          ⟨e.1, e.2.tx_bytes, e.2.rx_bytes, e.2.tx_packets, e.2.rx_packets,
           e.2.timestamp⟩)) ∧
    (cs ≠ [] → (∀ r ∈ cs, (mkConnRow connTs r).isSome = true) →
      (connect_handler host true api connTs now st).store.connTbl =
        st.connTbl ++ cs.filterMap (mkConnRow connTs)) ∧
    (cs ≠ [] → ¬(∀ r ∈ cs, (mkConnRow connTs r).isSome = true) →
      (connect_handler host true api connTs now st).store.connTbl =
        st.connTbl) := by
  have hh : connect_handler host true api connTs now st =
      ⟨true, true, true, true,
        (collect_data true true api connTs now st).1,
        (collect_data true true api connTs now st).2⟩ := by
    simp [connect_handler, hhost]
  rw [hh]
  refine ⟨rfl, rfl, rfl, rfl, ?_, ?_, ?_, ?_, ?_, ?_⟩
  · simp [collect_data, hc, hb, ht]
  · simp [collect_data, hc, hb, ht,
      apply_ite (fun s : StoreState => s.last_update)]
  · intro htr
    simp [collect_data, hc, hb, ht, htr, store_ip_traffic,
      apply_ite (fun s : StoreState => s.ipTbl)]
  · intro hbs
    simp [collect_data, hc, hb, ht, hbs, store_bandwidth_usage,
      apply_ite (fun s : StoreState => s.bwTbl)]
  · intro hcs hok
    have hall : cs.all (fun r => (mkConnRow connTs r).isSome) = true := by
      rw [List.all_eq_true]
      exact hok
    simp [collect_data, hc, hb, ht, hcs, store_active_connections, hall,
      apply_ite (fun s : StoreState => s.connTbl)]
  · intro hcs hnok
    have hall : cs.all (fun r => (mkConnRow connTs r).isSome) = false := by
      cases h : cs.all (fun r => (mkConnRow connTs r).isSome) with
      | false => rfl
      | true => exact absurd (fun r hr => List.all_eq_true.mp h r hr) hnok
    simp [collect_data, hc, hb, ht, hcs, store_active_connections, hall,
      apply_ite (fun s : StoreState => s.connTbl)]

/-- C9 witness: the amended theorem applied to a concrete successful
connect whose traffic fetch returns one record. -/
theorem connect_success_behavior_witness :
    (connect_handler "192.168.88.1" true
      ⟨some [], some [],
       some [⟨"10.0.0.1", 1, 2, 3, 1, "2024-01-01T00:00:05"⟩]⟩
      "2024-01-01T00:00:00" "2024-01-01T00:00:06"
      ⟨[], [], [], none⟩).connected = true :=
  (connect_success_behavior "192.168.88.1"
    ⟨some [], some [],
     some [⟨"10.0.0.1", 1, 2, 3, 1, "2024-01-01T00:00:05"⟩]⟩
    "2024-01-01T00:00:00" "2024-01-01T00:00:06" ⟨[], [], [], none⟩
    [] [] [⟨"10.0.0.1", 1, 2, 3, 1, "2024-01-01T00:00:05"⟩]
    (by decide) rfl rfl rfl).1

/-! ## C2 -/

/-- C2: `get_top_ips_by_traffic` returns at most `limit` entries, ordered
descending by summed `total_bytes`, one entry per distinct in-window
`ip_address` (no duplicates; all of them when at most `limit` groups
exist), each entry carries the per-group sums of `tx_bytes`, `rx_bytes`
and `total_bytes` and the group's maximum timestamp as `last_seen`, and
the truncation keeps the top groups: every group omitted from the result
has a summed `total_bytes` no larger than that of every returned
entry. -/
theorem top_ips_correct :
    ∀ (tbl : List IpRow) (limit : Nat) (cutoff : String),
      (get_top_ips_by_traffic tbl limit cutoff).length ≤ limit ∧
      (get_top_ips_by_traffic tbl limit cutoff).Pairwise
        (fun a b => b.total_bytes ≤ a.total_bytes) ∧
      ((get_top_ips_by_traffic tbl limit cutoff).map
        (fun e => e.ip_address)).Nodup ∧
      (∀ e ∈ get_top_ips_by_traffic tbl limit cutoff,
        e.total_tx_bytes = (((ipWindow tbl cutoff).filter
            (fun r => r.ip_address = e.ip_address)).map
            (fun r => r.tx_bytes)).sum ∧
        e.total_rx_bytes = (((ipWindow tbl cutoff).filter
            (fun r => r.ip_address = e.ip_address)).map
            (fun r => r.rx_bytes)).sum ∧
        e.total_bytes = (((ipWindow tbl cutoff).filter
            (fun r => r.ip_address = e.ip_address)).map
            (fun r => r.total_bytes)).sum ∧
        (∃ r ∈ ipWindow tbl cutoff, r.ip_address = e.ip_address ∧
          r.timestamp = e.last_seen) ∧
        (∀ r ∈ ipWindow tbl cutoff, r.ip_address = e.ip_address →
          strLe r.timestamp e.last_seen = true)) ∧
      (((ipWindow tbl cutoff).map (fun r => r.ip_address)).dedup.length ≤
          limit →
        ∀ k ∈ ((ipWindow tbl cutoff).map (fun r => r.ip_address)).dedup,
          k ∈ (get_top_ips_by_traffic tbl limit cutoff).map
            (fun e => e.ip_address)) ∧
      (∀ e ∈ get_top_ips_by_traffic tbl limit cutoff,
        ∀ k ∈ ((ipWindow tbl cutoff).map (fun r => r.ip_address)).dedup,
          k ∉ (get_top_ips_by_traffic tbl limit cutoff).map
            (fun e => e.ip_address) →
          (((ipWindow tbl cutoff).filter
            (fun r => r.ip_address = k)).map
            (fun r => r.total_bytes)).sum ≤ e.total_bytes) := by
  intro tbl limit cutoff
  have hdef : get_top_ips_by_traffic tbl limit cutoff =
      (List.insertionSort topDesc
        ((((ipWindow tbl cutoff).map (fun r => r.ip_address)).dedup).map
          (topGroup (ipWindow tbl cutoff)))).take limit := rfl
  refine ⟨?_, ?_, ?_, ?_, ?_, ?_⟩
  · rw [hdef]
    exact List.length_take_le _ _
  · rw [hdef]
    exact List.Pairwise.sublist (List.take_sublist _ _)
      (List.sorted_insertionSort topDesc _)
  · rw [hdef]
    have hnd : ((((ipWindow tbl cutoff).map (fun r => r.ip_address)).dedup).map
        (topGroup (ipWindow tbl cutoff))).map (fun e => e.ip_address) =
        ((ipWindow tbl cutoff).map (fun r => r.ip_address)).dedup := by
      rw [List.map_map]
      exact List.map_id _
    have hsorted : ((List.insertionSort topDesc
        ((((ipWindow tbl cutoff).map (fun r => r.ip_address)).dedup).map
          (topGroup (ipWindow tbl cutoff)))).map
        (fun e => e.ip_address)).Nodup := by
      apply (List.Perm.nodup_iff (List.Perm.map (fun e => e.ip_address)
        (List.perm_insertionSort topDesc _))).mpr
      rw [hnd]
      exact List.nodup_dedup _
    exact hsorted.sublist (List.Sublist.map _ (List.take_sublist _ _))
  · intro e he
    rw [hdef] at he
    have he2 : e ∈ List.insertionSort topDesc
        ((((ipWindow tbl cutoff).map (fun r => r.ip_address)).dedup).map
          (topGroup (ipWindow tbl cutoff))) :=
      (List.take_sublist _ _).subset he
    have he3 : e ∈ (((ipWindow tbl cutoff).map
        (fun r => r.ip_address)).dedup).map (topGroup (ipWindow tbl cutoff)) :=
      (List.perm_insertionSort topDesc _).mem_iff.mp he2
    obtain ⟨k, hkmem, hk⟩ := List.mem_map.mp he3
    subst hk
    have hrows : ∃ r ∈ ipWindow tbl cutoff, r.ip_address = k := by
      have : k ∈ (ipWindow tbl cutoff).map (fun r => r.ip_address) :=
        List.mem_dedup.mp hkmem
      obtain ⟨r, hr, hrk⟩ := List.mem_map.mp this
      exact ⟨r, hr, hrk⟩
    have hfilter_ne : (ipWindow tbl cutoff).filter
        (fun r => r.ip_address = k) ≠ [] := by
      obtain ⟨r, hr, hrk⟩ := hrows
      intro hnil
      have : r ∈ (ipWindow tbl cutoff).filter (fun r => r.ip_address = k) :=
        List.mem_filter.mpr ⟨hr, by simp [hrk]⟩
      rw [hnil] at this
      cases this
    refine ⟨rfl, rfl, rfl, ?_, ?_⟩
    · have hmaxmem : maxTs (((ipWindow tbl cutoff).filter
          (fun r => r.ip_address = k)).map (fun r => r.timestamp)) ∈
          ((ipWindow tbl cutoff).filter
            (fun r => r.ip_address = k)).map (fun r => r.timestamp) := by
        apply maxTs_mem
        simp only [ne_eq, List.map_eq_nil_iff]
        exact hfilter_ne
      obtain ⟨r, hr, hrt⟩ := List.mem_map.mp hmaxmem
      have hr2 := List.mem_filter.mp hr
      refine ⟨r, hr2.1, ?_, hrt⟩
      show r.ip_address = k
      simpa using hr2.2
    · intro r hr hrk
      have hrk2 : r.ip_address = k := hrk
      have hrfil : r ∈ (ipWindow tbl cutoff).filter
          (fun r => r.ip_address = k) := by
        apply List.mem_filter.mpr
        exact ⟨hr, by simp [hrk2]⟩
      exact le_maxTs _ _ (List.mem_map_of_mem (fun r => r.timestamp) hrfil)
  · intro hlen k hk
    rw [hdef]
    have hlen2 : (List.insertionSort topDesc
        ((((ipWindow tbl cutoff).map (fun r => r.ip_address)).dedup).map
          (topGroup (ipWindow tbl cutoff)))).length ≤ limit := by
      rw [List.length_insertionSort, List.length_map]
      exact hlen
    rw [List.take_of_length_le hlen2]
    have : topGroup (ipWindow tbl cutoff) k ∈
        (((ipWindow tbl cutoff).map (fun r => r.ip_address)).dedup).map
          (topGroup (ipWindow tbl cutoff)) :=
      List.mem_map_of_mem _ hk
    have hmem : topGroup (ipWindow tbl cutoff) k ∈ List.insertionSort topDesc
        ((((ipWindow tbl cutoff).map (fun r => r.ip_address)).dedup).map
          (topGroup (ipWindow tbl cutoff))) :=
      (List.perm_insertionSort topDesc _).mem_iff.mpr this
    exact List.mem_map.mpr ⟨topGroup (ipWindow tbl cutoff) k, hmem, rfl⟩
  · intro e he k hk hnot
    rw [hdef] at he
    set S := List.insertionSort topDesc
      ((((ipWindow tbl cutoff).map (fun r => r.ip_address)).dedup).map
        (topGroup (ipWindow tbl cutoff))) with hS
    have hsort : List.Pairwise topDesc S := List.sorted_insertionSort topDesc _
    have hg : topGroup (ipWindow tbl cutoff) k ∈ S :=
      (List.perm_insertionSort topDesc _).mem_iff.mpr
        (List.mem_map_of_mem _ hk)
    have hsplit := List.take_append_drop limit S
    have hcross : ∀ a ∈ S.take limit, ∀ b ∈ S.drop limit, topDesc a b := by
      have hp : List.Pairwise topDesc (S.take limit ++ S.drop limit) := by
        rw [hsplit]
        exact hsort
      exact (List.pairwise_append.mp hp).2.2
    have hg2 : topGroup (ipWindow tbl cutoff) k ∈
        S.take limit ++ S.drop limit := by
      rw [hsplit]
      exact hg
    have hdropmem : topGroup (ipWindow tbl cutoff) k ∈ S.drop limit := by
      rcases List.mem_append.mp hg2 with h1 | h1
      · exfalso
        apply hnot
        rw [hdef]
        exact List.mem_map.mpr ⟨topGroup (ipWindow tbl cutoff) k, h1, rfl⟩
      · exact h1
    exact hcross e he _ hdropmem

/-- C2 witness: the theorem applied at a concrete two-row table with
`limit` 1. -/
theorem top_ips_correct_witness :
    (get_top_ips_by_traffic
      [⟨"10.0.0.1", 1, 2, 3, 1, "2024-01-01T05:00:00"⟩,
       ⟨"10.0.0.2", 9, 9, 18, 1, "2024-01-01T06:00:00"⟩] 1
      "2024-01-01T00:00:00").length ≤ 1 :=
  (top_ips_correct
    [⟨"10.0.0.1", 1, 2, 3, 1, "2024-01-01T05:00:00"⟩,
     ⟨"10.0.0.2", 9, 9, 18, 1, "2024-01-01T06:00:00"⟩] 1
    "2024-01-01T00:00:00").1

/-! ## C3 -/

theorem splitOnDot_ne_nil : ∀ l : List Char, splitOnDot l ≠ [] := by
  intro l
  induction l with
  | nil => simp [splitOnDot]
  | cons c rest ih =>
    unfold splitOnDot
    cases h : splitOnDot rest with
    | nil => simp
    | cons g gs => split_ifs <;> simp

theorem splitOnDot_no_dot : ∀ g : List Char, (∀ c ∈ g, c ≠ '.') →
    splitOnDot g = [g] := by
  intro g
  induction g with
  | nil => intro _; rfl
  | cons c rest ih =>
    intro h
    have hc : c ≠ '.' := h c (List.mem_cons_self _ _)
    have hrest := ih (fun x hx => h x (List.mem_cons_of_mem _ hx))
    unfold splitOnDot
    rw [hrest]
    simp [hc]

theorem splitOnDot_append : ∀ (g rest : List Char), (∀ c ∈ g, c ≠ '.') →
    splitOnDot (g ++ '.' :: rest) = g :: splitOnDot rest := by
  intro g
  induction g with
  | nil =>
    intro rest _
    show splitOnDot ('.' :: rest) = [] :: splitOnDot rest
    cases h : splitOnDot rest with
    | nil => exact absurd h (splitOnDot_ne_nil rest)
    | cons a as => simp [splitOnDot, h]
  | cons c cs ih =>
    intro rest h
    have hc : c ≠ '.' := h c (List.mem_cons_self _ _)
    have hcs := ih rest (fun x hx => h x (List.mem_cons_of_mem _ hx))
    show splitOnDot (c :: (cs ++ '.' :: rest)) = (c :: cs) :: splitOnDot rest
    simp only [splitOnDot]
    rw [hcs]
    simp [hc]

/-- Every character of a string is a separator dot or belongs to one of
the split groups. -/
theorem mem_splitOnDot : ∀ (l : List Char) (c : Char), c ∈ l →
    c = '.' ∨ ∃ g ∈ splitOnDot l, c ∈ g := by
  intro l
  induction l with
  | nil => intro c hc; cases hc
  | cons x rest ih =>
    intro c hc
    by_cases hx : x = '.'
    · subst hx
      rcases List.mem_cons.mp hc with h | h
      · left; exact h
      · rcases ih c h with h2 | ⟨g, hg, hcg⟩
        · left; exact h2
        · right
          refine ⟨g, ?_, hcg⟩
          unfold splitOnDot
          cases hs : splitOnDot rest with
          | nil => exact absurd hs (splitOnDot_ne_nil rest)
          | cons a as =>
            rw [hs] at hg
            simp only [if_pos rfl]
            exact List.mem_cons_of_mem _ hg
    · rcases List.mem_cons.mp hc with h | h
      · subst h
        right
        unfold splitOnDot
        cases hs : splitOnDot rest with
        | nil => exact absurd hs (splitOnDot_ne_nil rest)
        | cons a as =>
          refine ⟨c :: a, ?_, List.mem_cons_self _ _⟩
          simp [hx]
      · rcases ih c h with h2 | ⟨g, hg, hcg⟩
        · left; exact h2
        · right
          unfold splitOnDot
          cases hs : splitOnDot rest with
          | nil => exact absurd hs (splitOnDot_ne_nil rest)
          | cons a as =>
            rw [hs] at hg
            rcases List.mem_cons.mp hg with hga | hga
            · refine ⟨x :: a, ?_, ?_⟩
              · simp [hx]
              · exact List.mem_cons_of_mem _ (hga ▸ hcg)
            · refine ⟨g, ?_, hcg⟩
              simp only [if_neg hx]
              exact List.mem_cons_of_mem _ hga

theorem isDigit_digitChar {d : Nat} (h : d < 10) :
    (digitChar d).isDigit = true := by
  interval_cases d <;> decide

theorem digitChar_ne_dot {d : Nat} (h : d < 10) : digitChar d ≠ '.' := by
  interval_cases d <;> decide

theorem octStr_goodGroup {n : Nat} (h : n ≤ 999) :
    goodGroup (octStr n) = true := by
  unfold octStr
  split_ifs with h1 h2
  · simp [goodGroup, isDigit_digitChar h1]
  · have d1 : n / 10 < 10 := by omega
    have d2 : n % 10 < 10 := by omega
    simp [goodGroup, isDigit_digitChar d1, isDigit_digitChar d2]
  · have d1 : n / 100 < 10 := by omega
    have d2 : n / 10 % 10 < 10 := by omega
    have d3 : n % 10 < 10 := by omega
    simp [goodGroup, isDigit_digitChar d1, isDigit_digitChar d2,
      isDigit_digitChar d3]

theorem octStr_no_dot {n : Nat} (h : n ≤ 999) : ∀ c ∈ octStr n, c ≠ '.' := by
  unfold octStr
  split_ifs with h1 h2 <;> intro c hc <;> simp only [List.mem_cons,
    List.mem_singleton, List.not_mem_nil, or_false] at hc
  · rw [hc]
    exact digitChar_ne_dot h1
  · rcases hc with hc | hc <;> rw [hc]
    · exact digitChar_ne_dot (by omega)
    · exact digitChar_ne_dot (by omega)
  · rcases hc with hc | hc | hc <;> rw [hc]
    · exact digitChar_ne_dot (by omega)
    · exact digitChar_ne_dot (by omega)
    · exact digitChar_ne_dot (by omega)

theorem ipCore_eq (l : List Char) (h : ipCore l = true) :
    ∃ a b c d, splitOnDot l = [a, b, c, d] ∧ goodGroup a = true ∧
      goodGroup b = true ∧ goodGroup c = true ∧ goodGroup d = true := by
  unfold ipCore at h
  rcases hs : splitOnDot l with _ | ⟨a, _ | ⟨b, _ | ⟨c', _ | ⟨d, _ | ⟨e, rest⟩⟩⟩⟩⟩ <;>
    rw [hs] at h
  · simp at h
  · simp at h
  · simp at h
  · simp at h
  · simp only [Bool.and_eq_true] at h
    exact ⟨a, b, c', d, rfl, h.1.1.1, h.1.1.2, h.1.2, h.2⟩
  · simp at h

/-- Characters of a string accepted by the core pattern are digits or
dots. -/
theorem ipCore_chars {l : List Char} (h : ipCore l = true) :
    ∀ c ∈ l, c.isDigit = true ∨ c = '.' := by
  intro c hc
  rcases mem_splitOnDot l c hc with h1 | ⟨g, hg, hcg⟩
  · right; exact h1
  · left
    obtain ⟨a, b, c', d, hs, ha, hb, hc', hd⟩ := ipCore_eq l h
    rw [hs] at hg
    have hgood : goodGroup g = true := by
      simp only [List.mem_cons, List.mem_singleton, List.not_mem_nil,
        or_false] at hg
      rcases hg with hg | hg | hg | hg <;> rw [hg] <;> assumption
    simp only [goodGroup, Bool.and_eq_true, List.all_eq_true] at hgood
    exact hgood.2 c hcg

/-- The canonical rendering of four values below 1000 matches the core
pattern. -/
theorem ipCore_renderQuad {a b c d : Nat} (ha : a ≤ 999) (hb : b ≤ 999)
    (hc : c ≤ 999) (hd : d ≤ 999) :
    ipCore (renderQuad a b c d).data = true := by
  show ipCore (octStr a ++ '.' ::
    (octStr b ++ '.' :: (octStr c ++ '.' :: octStr d))) = true
  unfold ipCore
  rw [splitOnDot_append (octStr a) _ (octStr_no_dot ha),
    splitOnDot_append (octStr b) _ (octStr_no_dot hb),
    splitOnDot_append (octStr c) _ (octStr_no_dot hc),
    splitOnDot_no_dot (octStr d) (octStr_no_dot hd)]
  simp [octStr_goodGroup ha, octStr_goodGroup hb, octStr_goodGroup hc,
    octStr_goodGroup hd]

/-- C3 counterexample: the validator accepts `"300.0.0.0"` although 300
is out of the octet range 0..255 — the regular expression only bounds the
number of digits per octet, not its value. -/
theorem is_valid_ip_counterexample :
    is_valid_ip "300.0.0.0" = true ∧ 255 < 300 :=
  ⟨by decide, by decide⟩

/-- C3 (amended): the validator accepts every dotted quad of four one- to
three-digit octets — in particular every valid IPv4 dotted quad, but also
out-of-range octets such as 300 — and rejects every string containing an
ASCII character that is neither a digit, a dot, nor a trailing-newline
character. -/
theorem is_valid_ip_amended :
    (∀ a b c d : Nat, a ≤ 999 → b ≤ 999 → c ≤ 999 → d ≤ 999 →
      is_valid_ip (renderQuad a b c d) = true) ∧
    (∀ s : String, (∃ c ∈ s.data, c.toNat < 128 ∧ c.isDigit = false ∧
      c ≠ '.' ∧ c ≠ '\n') → is_valid_ip s = false) := by
  constructor
  · intro a b c d ha hb hc hd
    unfold is_valid_ip
    rw [ipCore_renderQuad ha hb hc hd]
    simp
  · intro s hex
    obtain ⟨c, hcs, _, hcd, hcdot, hcnl⟩ := hex
    cases hv : is_valid_ip s with
    | false => rfl
    | true =>
      exfalso
      unfold is_valid_ip at hv
      rcases Bool.or_eq_true_iff.mp hv with h1 | h2
      · rcases ipCore_chars h1 c hcs with hd' | hdot
        · rw [hcd] at hd'; cases hd'
        · exact hcdot hdot
      · simp only [Bool.and_eq_true, decide_eq_true_eq] at h2
        obtain ⟨⟨hne, hlast⟩, hcore⟩ := h2
        rcases List.eq_nil_or_concat s.data with hnil | ⟨l', x, hconcat⟩
        · rw [hnil] at hne; simp at hne
        · rw [hconcat] at hcs hlast hcore
          simp only [List.concat_eq_append] at hcs hlast hcore
          rw [List.dropLast_concat] at hcore
          have hx : x = '\n' := by
            rw [List.getLastD_concat] at hlast
            exact hlast
          rcases List.mem_append.mp hcs with hcl | hcl
          · rcases ipCore_chars hcore c hcl with hd' | hdot
            · rw [hcd] at hd'; cases hd'
            · exact hcdot hdot
          · have : c = x := by simpa using hcl
            exact hcnl (this.trans hx)

/-- C3 witness: the amended theorem accepts the canonical rendering of
`192.168.88.1` and rejects a string with a letter octet. -/
theorem is_valid_ip_amended_witness :
    is_valid_ip (renderQuad 192 168 88 1) = true ∧
    is_valid_ip "192.168.88.x" = false :=
  ⟨is_valid_ip_amended.1 192 168 88 1 (by decide) (by decide) (by decide)
    (by decide),
   is_valid_ip_amended.2 "192.168.88.x" (by decide)⟩
